import Mathlib

/-!
# Verification of `tap_facebook/service.py`

A shallow embedding of the reporting service in
`src/tap_facebook/service.py` (class `FacebookReportingService`), together
with theorems settling the specification claims about it.

Modelling conventions:

* Python/JSON values are the inductive `PyVal`.  Python `float` is carried
  as an exact rational: the claims under study depend only on whether a
  numeric conversion succeeds, never on rounding of binary floats.
* Python dicts are association lists with insert-or-overwrite semantics
  (`alistInsert`), preserving insertion order like Python dicts.
* Fallible Python code (raising statements) is embedded in
  `Option`/`Except`; an uncaught exception is an `Except.error`.
* The network is embedded as a list of `HttpEvent`s, one per issued
  `requests.get`: the request may return a non-200 status (`fail`), return
  a parsed JSON body (`ok body` — `.json()` succeeded), or raise during
  the request or during parsing (`exn`).
-/

set_option maxHeartbeats 1000000

namespace TapFacebook

/-- A Python/JSON value as handled by the service. `float` is an exact
rational stand-in for a Python float (only convertibility matters here);
`none` is Python `None`. -/
inductive PyVal where
  | int (n : Int)
  | float (q : Rat)
  | str (s : String)
  | bool (b : Bool)
  | none
  | list (xs : List PyVal)
  | dict (fields : List (String × PyVal))

/-- A Python dict with string keys, in insertion order. -/
abbrev Obj := List (String × PyVal)

/-- First-match lookup in an association list (Python `d[k]` on success). -/
def alistLookup {α : Type} : List (String × α) → String → Option α
  | [], _ => Option.none
  | (k', v) :: rest, k => if k' = k then some v else alistLookup rest k

/-- Python `k in d` for a dict. -/
def alistContains {α : Type} (d : List (String × α)) (k : String) : Bool :=
  (alistLookup d k).isSome

/-- Python `d[k] = v`: overwrite in place if the key is present (keeping
its position, as Python dicts do), else append. -/
def alistInsert {α : Type} : List (String × α) → String → α → List (String × α)
  | [], k, v => [(k, v)]
  | (k', w) :: rest, k, v =>
      if k' = k then (k', v) :: rest else (k', w) :: alistInsert rest k v

/-- Python subscript `x[k]` with a string key: succeeds only on a dict
that has the key; a missing key (KeyError) or a non-dict receiver
(TypeError) is `none`. -/
def pySubscript : PyVal → String → Option PyVal
  | .dict d, k => alistLookup d k
  | _, _ => Option.none

/-- Python membership `k in x` for a string `k`.  On a dict it is key
membership, on a list it is element equality against the string; on the
other values the service would raise (`none`).  (Python also allows
substring tests on `str`, which no call site exercises.) -/
def pyContains : PyVal → String → Option Bool
  | .dict d, k => some (alistContains d k)
  | .list xs, k => some (xs.any (fun v => match v with | .str s => s = k | _ => false))
  | _, _ => Option.none

/-- Python `x[i]` with an integer index: list indexing; out of range
(IndexError) or a non-indexable value is `none`.  (String indexing is not
exercised by the service.) -/
def pyIndex : PyVal → Nat → Option PyVal
  | .list xs, i => xs.get? i
  | _, _ => Option.none

/-- Python `x == n` against an int literal (used for `params['limit'] ==
MAX_PAGE_SIZE`): numeric cross-type equality, `False` on other types. -/
def pyEqInt : PyVal → Int → Bool
  | .int m, n => m = n
  | .float q, n => q = (n : Rat)
  | .bool b, n => (if b then (1 : Int) else 0) = n
  | _, _ => false

/-- Drop ASCII whitespace from both ends (Python `int()`/`float()` allow
surrounding whitespace in string arguments). -/
def trimChars (cs : List Char) : List Char :=
  ((cs.dropWhile Char.isWhitespace).reverse.dropWhile Char.isWhitespace).reverse

/-- Accumulate decimal digits; `none` on any non-digit. -/
def digitsToNatAux : List Char → Nat → Option Nat
  | [], acc => some acc
  | c :: rest, acc =>
      if c.isDigit then digitsToNatAux rest (acc * 10 + (c.toNat - 48)) else Option.none

/-- Value of a non-empty all-digit string. -/
def digitsToNat (cs : List Char) : Option Nat :=
  if cs.isEmpty then Option.none else digitsToNatAux cs 0

/-- Python `int(s)` on a string: optional sign, then decimal digits.
(Underscore separators, a Python 3.6 nicety, are not exercised by the
service's inputs and are not modelled.) -/
def parseIntString (s : String) : Option Int :=
  match trimChars s.data with
  | '-' :: rest => (digitsToNat rest).map (fun n => -(n : Int))
  | '+' :: rest => (digitsToNat rest).map (fun n => (n : Int))
  | cs => (digitsToNat cs).map (fun n => (n : Int))

/-- Fraction digits `ds` read as `0.ds`. -/
def fracVal (cs : List Char) : Option Rat :=
  (digitsToNat cs).map (fun n => (n : Rat) / ((10 : Rat) ^ cs.length))

/-- Python `float(s)` on a string: optional sign, decimal digits with an
optional point; at least one digit overall (`"1."`, `".5"` are legal).
(Exponent notation and `inf`/`nan`, unexercised here, are not modelled.) -/
def parseFloatString (s : String) : Option Rat :=
  let core : List Char → Option Rat := fun cs =>
    match cs.span (fun c => c ≠ '.') with
    | (ip, []) => (digitsToNat ip).map (fun n => (n : Rat))
    | (ip, _ :: fp) =>
      if ip.isEmpty ∧ fp.isEmpty then Option.none
      else if ip.isEmpty then fracVal fp
      else if fp.isEmpty then (digitsToNat ip).map (fun n => (n : Rat))
      else
        match digitsToNat ip, fracVal fp with
        | some n, some f => some ((n : Rat) + f)
        | _, _ => Option.none
  match trimChars s.data with
  | '-' :: rest => (core rest).map (fun q => -q)
  | '+' :: rest => core rest
  | cs => core cs

/-- Truncation toward zero, as Python `int(float)` does. -/
def ratTrunc (q : Rat) : Int :=
  if 0 ≤ q then q.floor else q.ceil

/-- Python `int(x)`: ints pass through, floats truncate toward zero,
strings parse as integer literals, bools collapse to 0/1; everything else
raises (`none`). -/
def pyToInt : PyVal → Option Int
  | .int n => some n
  | .float q => some (ratTrunc q)
  | .str s => parseIntString s
  | .bool b => some (if b then 1 else 0)
  | _ => Option.none

/-- Python `float(x)`: ints and floats pass through, strings parse as
decimal literals, bools collapse to 0/1; everything else raises. -/
def pyToFloat : PyVal → Option Rat
  | .int n => some (n : Rat)
  | .float q => some q
  | .str s => parseFloatString s
  | .bool b => some (if b then 1 else 0)
  | _ => Option.none

/-! ## `retrieve_paged_data` (service.py lines 203-226)

```python
def retrieve_paged_data(self, url, params):
    result = []
    has_next_page = True
    next_page_token = ''
    try:
        while has_next_page:
            params['after'] = next_page_token
            raw_response = requests.get(url, params)
            if raw_response.status_code != 200:
                if params['limit'] == MAX_PAGE_SIZE:
                    params['limit'] = 1000
                    return self.retrieve_paged_data(url, params)
                else:
                    return []
            response = raw_response.json()
            result.extend(response['data'])
            has_next_page = 'next' in response['paging'] if 'paging' in response else False
            next_page_token = response['paging']['cursors']['after'] if 'paging' in response else ''
    except Exception as ex:
        LOGGER.info(ex)
    return result
```
-/

/-- One `requests.get` exchange inside `retrieve_paged_data`: a non-200
status, a parsed JSON body (status 200 and `.json()` succeeded), or an
exception raised by the request or by `.json()`. -/
inductive HttpEvent where
  | fail
  | ok (body : PyVal)
  | exn

/-- How a paged fetch finished.  The Python function returns a plain list
in every case; the tag records which source path produced it.  `caught`
is the `except Exception` handler (the fetch still returns its
accumulated items), `failedEmpty` is the `return []` after a non-200 at a
lowered limit, `starved` marks a run that exhausted the modelled event
list mid-loop (an artifact of the finite network model, not a program
behavior; no theorem relies on it). -/
inductive FetchOutcome where
  | completed
  | failedEmpty
  | caught
  | starved

/-- Result of `retrieve_paged_data`: the returned items, the final state
of the caller's `params` dict (which the function mutates in place), the
path that ended the loop, and the network events not consumed. -/
structure RpdRes where
  items : List PyVal
  params : Obj
  outcome : FetchOutcome
  rest : List HttpEvent

def MAX_PAGE_SIZE : Int := 5000

/-- The loop of `retrieve_paged_data`, one constructor of `events`
consumed per `requests.get`.  Mirrors the source line by line; every
`Option.none` coming out of a subscript/membership helper is a raised
KeyError/TypeError, landing in the `except` handler (`.caught`).
Non-list `data` values are also routed to `.caught`: `result.extend` of
an int raises TypeError (Python would iterate a `str` or `dict`
element-wise instead, which no endpoint produces). -/
def retrieve_paged_data_go : List HttpEvent → Obj → List PyVal → PyVal → RpdRes
  | [], params, result, _tok => ⟨result, params, .starved, []⟩
  | e :: rest, params, result, tok =>
    let params' := alistInsert params "after" tok
    match e with
    | .exn => ⟨result, params', .caught, rest⟩
    | .fail =>
      match alistLookup params' "limit" with
      | Option.none => ⟨result, params', .caught, rest⟩
      | some lim =>
        if pyEqInt lim MAX_PAGE_SIZE then
          retrieve_paged_data_go rest (alistInsert params' "limit" (.int 1000)) [] (.str "")
        else
          ⟨[], params', .failedEmpty, rest⟩
    | .ok body =>
      match pySubscript body "data" with
      | Option.none => ⟨result, params', .caught, rest⟩
      | some (.list pageItems) =>
        let result' := result ++ pageItems
        match pySubscript body "paging" with
        | Option.none => ⟨result', params', .completed, rest⟩
        | some paging =>
          match pyContains paging "next" with
          | Option.none => ⟨result', params', .caught, rest⟩
          | some hasNext =>
            match pySubscript paging "cursors" with
            | Option.none => ⟨result', params', .caught, rest⟩
            | some cursors =>
              match pySubscript cursors "after" with
              | Option.none => ⟨result', params', .caught, rest⟩
              | some nextTok =>
                if hasNext then retrieve_paged_data_go rest params' result' nextTok
                else ⟨result', params', .completed, rest⟩
      | some _ => ⟨result, params', .caught, rest⟩

/-- `retrieve_paged_data(url, params)`: the loop from the initial state
`result = []`, `next_page_token = ''`. -/
def retrieve_paged_data (params : Obj) (events : List HttpEvent) : RpdRes :=
  retrieve_paged_data_go events params [] (.str "")

/-! ## The per-stream registry `self.schema_map` (service.py lines 23-122) -/

/-- One entry of `self.schema_map`. -/
structure StreamCfg where
  level : String
  fields : String
  params : List (String × String)
  supported_actions : List String
  action_values : Bool

def common_fields : String := "campaign_id,campaign_name,account_id,account_name"

def campaign_fields : String :=
  "actions,action_values,unique_actions,clicks,impressions,reach,inline_link_clicks,spend,frequency,video_p100_watched_actions"

def ad_fields : String :=
  "adset_id,adset_name,ad_name,ad_id,actions,unique_actions,impressions,clicks,reach,inline_link_clicks,frequency,spend,video_p100_watched_actions,quality_ranking,engagement_rate_ranking,conversion_rate_ranking"

def default_actions : List String :=
  ["landing_page_view", "post_reaction", "video_view", "link_click",
   "page_engagement", "post_engagement", "post", "comment", "like", "action_reaction"]

def campaign_performance_cfg : StreamCfg :=
  ⟨"campaign", common_fields ++ "," ++ campaign_fields, [], default_actions, false⟩

def campaign_by_placement_cfg : StreamCfg :=
  ⟨"campaign", common_fields ++ "," ++ campaign_fields,
   [("breakdowns", "platform_position,publisher_platform,device_platform")], default_actions, false⟩

def campaign_by_age_gender_cfg : StreamCfg :=
  ⟨"campaign", common_fields ++ "," ++ campaign_fields,
   [("breakdowns", "age,gender")], default_actions, false⟩

def campaign_by_impression_device_cfg : StreamCfg :=
  ⟨"campaign", common_fields ++ "," ++ campaign_fields,
   [("breakdowns", "impression_device")], default_actions, false⟩

def ad_performance_cfg : StreamCfg :=
  ⟨"ad", common_fields ++ "," ++ ad_fields, [], default_actions, false⟩

def ad_by_placement_cfg : StreamCfg :=
  ⟨"ad", common_fields ++ "," ++ ad_fields,
   [("breakdowns", "platform_position,publisher_platform,device_platform")], default_actions, false⟩

def ad_by_age_gender_cfg : StreamCfg :=
  ⟨"ad", common_fields ++ "," ++ ad_fields,
   [("breakdowns", "age,gender")], default_actions, false⟩

def ad_by_impression_device_cfg : StreamCfg :=
  ⟨"ad", common_fields ++ "," ++ ad_fields,
   [("breakdowns", "impression_device")], default_actions, false⟩

def offline_conversion_cfg : StreamCfg :=
  ⟨"campaign", common_fields ++ "," ++ "actions,action_values", [],
   ["offline_conversion.purchase"], true⟩

def offline_conversion_by_age_gender_cfg : StreamCfg :=
  ⟨"campaign", common_fields ++ "," ++ "actions,action_values",
   [("breakdowns", "age,gender")], ["offline_conversion.purchase"], true⟩

def offline_conversion_by_impression_device_cfg : StreamCfg :=
  ⟨"campaign", common_fields ++ "," ++ "actions,action_values",
   [("breakdowns", "impression_device")], ["offline_conversion.purchase"], true⟩

/-- `self.schema_map`, keyed by stream name. -/
def schema_map : List (String × StreamCfg) :=
  [("campaign_performance_report", campaign_performance_cfg),
   ("campaign_by_placement_performance_report", campaign_by_placement_cfg),
   ("campaign_by_age_gender_performance_report", campaign_by_age_gender_cfg),
   ("campaign_by_impression_device_performance_report", campaign_by_impression_device_cfg),
   ("ad_performance_report", ad_performance_cfg),
   ("ad_by_placement_performance_report", ad_by_placement_cfg),
   ("ad_by_age_gender_performance_report", ad_by_age_gender_cfg),
   ("ad_by_impression_device_performance_report", ad_by_impression_device_cfg),
   ("offline_conversion_performance_report", offline_conversion_cfg),
   ("offline_conversion_by_age_gender_performance_report", offline_conversion_by_age_gender_cfg),
   ("offline_conversion_by_impression_device_performance_report", offline_conversion_by_impression_device_cfg)]

/-- `self.schema_map[stream]`; `none` is the KeyError an unknown stream
name raises at the point of use. -/
def schemaMapLookup (s : String) : Option StreamCfg :=
  alistLookup schema_map s

/-! ## `map_record` (service.py lines 155-189) -/

/-- `action["action_type"].replace(".", "_") + "s"`.  The pattern is the
single character `'.'`, so per-character replacement coincides with
`str.replace`. -/
def actionKey (t : String) : String :=
  String.mk (t.data.map (fun c => if c = '.' then '_' else c)) ++ "s"

/-- One property of the destination schema inside the `for prop in
self.props` loop: coerce when the key is in the raw item (`int()` /
`float()` by declared type, pass-through otherwise), default when absent
(`0` for integer/number — a Python int — else `''`). -/
def coerceProp (item : PyVal) (key ty : String) : Except String PyVal :=
  match pyContains item key with
  | Option.none => .error "TypeError: membership test"
  | some true =>
    match pySubscript item key with
    | Option.none => .error "TypeError: subscript"
    | some v =>
      if ty = "integer" then
        match pyToInt v with
        | some n => .ok (.int n)
        | Option.none => .error "ValueError: int()"
      else if ty = "number" then
        match pyToFloat v with
        | some q => .ok (.float q)
        | Option.none => .error "ValueError: float()"
      else .ok v
  | some false =>
      .ok (if ty = "integer" ∨ ty = "number" then .int 0 else .str "")

/-- The schema-projection loop of `map_record` (lines 157-171), building
`obj` key by key in `self.props` order. -/
def mapStep1 : List (String × String) → PyVal → Obj → Except String Obj
  | [], _, obj => .ok obj
  | (k, ty) :: rest, item, obj =>
    match coerceProp item k ty with
    | .error e => .error e
    | .ok v => mapStep1 rest item (alistInsert obj k v)

/-- `a['action_type']` inside a `filter` predicate; a missing key or a
non-dict entry raises. -/
def entryType (a : PyVal) : Except String PyVal :=
  match pySubscript a "action_type" with
  | Option.none => .error "KeyError: action_type"
  | some v => .ok v

/-- `list(filter(lambda a: pred(a['action_type']), entries))`: the whole
list is filtered (all predicate evaluations, hence all their exceptions)
before any loop body runs. -/
def filterByType (pred : PyVal → Bool) : List PyVal → Except String (List PyVal)
  | [] => .ok []
  | a :: rest =>
    match entryType a with
    | .error e => .error e
    | .ok tv =>
      match filterByType pred rest with
      | .error e => .error e
      | .ok tl => .ok (if pred tv then a :: tl else tl)

/-- Loop body of the `actions` extraction (lines 175-176):
`obj[f'...'] = int(action['value'])`.  Python evaluates the right-hand
side (`action['value']`, then `int`) before the key expression, whose
`.replace` would raise AttributeError on a non-str `action_type`. -/
def foldActions : Obj → List PyVal → Except String Obj
  | obj, [] => .ok obj
  | obj, a :: rest =>
    match pySubscript a "value" with
    | Option.none => .error "KeyError: value"
    | some v =>
      match pyToInt v with
      | Option.none => .error "ValueError: int()"
      | some n =>
        match pySubscript a "action_type" with
        | some (.str t) => foldActions (alistInsert obj (actionKey t) (.int n)) rest
        | _ => .error "AttributeError: replace"

/-- Loop body of the `unique_actions` extraction (lines 179-180); the key
is the fixed string `unique_link_clicks`. -/
def foldUnique : Obj → List PyVal → Except String Obj
  | obj, [] => .ok obj
  | obj, a :: rest =>
    match pySubscript a "value" with
    | Option.none => .error "KeyError: value"
    | some v =>
      match pyToInt v with
      | Option.none => .error "ValueError: int()"
      | some n => foldUnique (alistInsert obj "unique_link_clicks" (.int n)) rest

/-- Loop body of the `action_values` extraction (lines 183-184); float
cast, fixed key. -/
def foldActionValues : Obj → List PyVal → Except String Obj
  | obj, [] => .ok obj
  | obj, a :: rest =>
    match pySubscript a "value" with
    | Option.none => .error "KeyError: value"
    | some v =>
      match pyToFloat v with
      | Option.none => .error "ValueError: float()"
      | some q => foldActionValues (alistInsert obj "offline_conversion_purchase_value" (.float q)) rest

/-- The predicate of the `actions` filter (line 175):
`a['action_type'] in supported_actions` — `in` over a list of `str`
compares by equality, so a non-`str` value is simply not a member. -/
def predActions (cfg : StreamCfg) : PyVal → Bool := fun tv =>
  match tv with
  | .str t => decide (t ∈ cfg.supported_actions)
  | _ => false

/-- Lines 173-176: `if 'actions' in item: ...`. -/
def mapStepActions (cfg : StreamCfg) (item : PyVal) (obj : Obj) : Except String Obj :=
  match pyContains item "actions" with
  | Option.none => .error "TypeError: membership test"
  | some false => .ok obj
  | some true =>
    match pySubscript item "actions" with
    | some (.list entries) =>
      match filterByType (predActions cfg) entries with
      | .error e => .error e
      | .ok fs => foldActions obj fs
    | _ => .error "TypeError: filter"

/-- The predicate of the `unique_actions` filter (line 179):
`a['action_type'] == 'link_click'`. -/
def predUnique : PyVal → Bool := fun tv =>
  match tv with
  | .str t => t = "link_click"
  | _ => false

/-- Lines 178-180: `if 'unique_actions' in item: ...`. -/
def mapStepUnique (item : PyVal) (obj : Obj) : Except String Obj :=
  match pyContains item "unique_actions" with
  | Option.none => .error "TypeError: membership test"
  | some false => .ok obj
  | some true =>
    match pySubscript item "unique_actions" with
    | some (.list entries) =>
      match filterByType predUnique entries with
      | .error e => .error e
      | .ok fs => foldUnique obj fs
    | _ => .error "TypeError: filter"

/-- The predicate of the `action_values` filter (line 183):
`a['action_type'] == 'offline_conversion.purchase'`. -/
def predActionValues : PyVal → Bool := fun tv =>
  match tv with
  | .str t => t = "offline_conversion.purchase"
  | _ => false

/-- Lines 182-184: `if self.schema_map[...]['action_values'] and
'action_values' in item: ...` (the `and` short-circuits: the membership
test is skipped when the flag is off). -/
def mapStepActionValues (cfg : StreamCfg) (item : PyVal) (obj : Obj) : Except String Obj :=
  if cfg.action_values then
    match pyContains item "action_values" with
    | Option.none => .error "TypeError: membership test"
    | some false => .ok obj
    | some true =>
      match pySubscript item "action_values" with
      | some (.list entries) =>
        match filterByType predActionValues entries with
        | .error e => .error e
        | .ok fs => foldActionValues obj fs
      | _ => .error "TypeError: filter"
  else .ok obj

/-- Line 186: `obj['report_date'] = item['date_start']` — a raw pass
through; a missing `date_start` is an uncaught KeyError. -/
def mapStepReportDate (item : PyVal) (obj : Obj) : Except String Obj :=
  match pySubscript item "date_start" with
  | Option.none => .error "KeyError: date_start"
  | some v => .ok (alistInsert obj "report_date" v)

/-- Lines 187-188: the `video_views_p100` overwrite, run only when the
key is already in `obj`. -/
def mapStepVideo (item : PyVal) (obj : Obj) : Except String Obj :=
  if alistContains obj "video_views_p100" then
    match pyContains item "video_p100_watched_actions" with
    | Option.none => .error "TypeError: membership test"
    | some false => .ok (alistInsert obj "video_views_p100" (.int 0))
    | some true =>
      match pySubscript item "video_p100_watched_actions" with
      | Option.none => .error "TypeError: subscript"
      | some arr =>
        match pyIndex arr 0 with
        | Option.none => .error "IndexError: 0"
        | some first =>
          match pySubscript first "value" with
          | Option.none => .error "KeyError: value"
          | some v =>
            match pyToInt v with
            | Option.none => .error "ValueError: int()"
            | some n => .ok (alistInsert obj "video_views_p100" (.int n))
  else .ok obj

/-- `map_record(self, item)` (lines 155-189).  `props` is `self.props`
(the destination schema's properties as `(name, declared type)` pairs, in
order), `cfg` the stream's `schema_map` entry.  An `Except.error` is an
exception propagating out of `map_record` — nothing in it catches. -/
def map_record (props : List (String × String)) (cfg : StreamCfg) (item : PyVal) :
    Except String Obj :=
  match mapStep1 props item [] with
  | .error e => .error e
  | .ok obj1 =>
    match mapStepActions cfg item obj1 with
    | .error e => .error e
    | .ok obj2 =>
      match mapStepUnique item obj2 with
      | .error e => .error e
      | .ok obj3 =>
        match mapStepActionValues cfg item obj3 with
        | .error e => .error e
        | .ok obj4 =>
          match mapStepReportDate item obj4 with
          | .error e => .error e
          | .ok obj5 => mapStepVideo item obj5

/-! ## Orchestration: `parse_date`, `retrieve_account_ids`,
`retrieve_report_for_account`, `get_reports` (service.py lines 124-201) -/

def isLeap (y : Nat) : Bool :=
  (y % 4 = 0 && y % 100 ≠ 0) || y % 400 = 0

def daysInMonth (y m : Nat) : Nat :=
  if m = 2 then (if isLeap y then 29 else 28)
  else if m = 4 ∨ m = 6 ∨ m = 9 ∨ m = 11 then 30 else 31

def natDigit (n : Nat) : Char := Char.ofNat (48 + n)

def pad2 (n : Nat) : String :=
  String.mk [natDigit (n / 10 % 10), natDigit (n % 10)]

def pad4 (n : Nat) : String :=
  String.mk [natDigit (n / 1000 % 10), natDigit (n / 100 % 10),
             natDigit (n / 10 % 10), natDigit (n % 10)]

/-- `parse_date` (lines 151-153): `datetime.strptime(s, "%Y%m%d")`
reformatted with `strftime("%Y-%m-%d")`.  Modelled for the canonical
8-digit form (4-digit year, zero-padded month and day), with `strptime`'s
calendar validation (month range, day range per month, leap years,
`MINYEAR = 1`); `none` is the ValueError on anything else.  (`strptime`
also accepts 1-digit months/days in 6- and 7-character strings, which no
documented `dateRange` uses; those parse to `none` here.) -/
def parse_date (s : String) : Option String :=
  let cs := s.data
  if cs.length = 8 ∧ cs.all Char.isDigit then
    match digitsToNat (cs.take 4), digitsToNat ((cs.drop 4).take 2), digitsToNat (cs.drop 6) with
    | some y, some m, some d =>
        if 1 ≤ y ∧ 1 ≤ m ∧ m ≤ 12 ∧ 1 ≤ d ∧ d ≤ daysInMonth y m then
          some (pad4 y ++ "-" ++ pad2 m ++ "-" ++ pad2 d)
        else Option.none
    | _, _, _ => Option.none
  else Option.none

/-- `config['dateRange'].split(',')`. -/
def splitCommaAux : List Char → List Char → List String
  | [], acc => [String.mk acc.reverse]
  | c :: rest, acc =>
      if c = ',' then String.mk acc.reverse :: splitCommaAux rest []
      else splitCommaAux rest (c :: acc)

def splitOnComma (s : String) : List String :=
  splitCommaAux s.data []

/-- The configuration fields the service reads. -/
structure TapConfig where
  accessToken : String
  dateRange : String

/-- The modelled network: the `/me` exchange (the code calls
`requests.get(...).json()['id']` without checking the status, so all that
matters is whether `.json()` produced a body — `none` means the request
or the parse raised), the event list of the ad-accounts paged fetch, and
one event list per account index for the insights paged fetches. -/
structure Net where
  me : Option PyVal
  accountEvents : List HttpEvent
  reportEvents : List (List HttpEvent)

/-- `list(map(lambda item: self.map_record(item), ...))` — eager, so the
first mapping error aborts the whole account's batch. -/
def mapRecords (props : List (String × String)) (cfg : StreamCfg) :
    List PyVal → Except String (List Obj)
  | [] => .ok []
  | it :: rest =>
    match map_record props cfg it with
    | .error e => .error e
    | .ok r =>
      match mapRecords props cfg rest with
      | .error e => .error e
      | .ok rs => .ok (r :: rs)

/-- `list(map(lambda acc: acc['id'], accounts))` (line 200); a discovered
account without an `id` key raises in the main thread. -/
def extractIds : List PyVal → Except String (List PyVal)
  | [] => .ok []
  | a :: rest =>
    match pySubscript a "id" with
    | Option.none => .error "KeyError: id"
    | some v =>
      match extractIds rest with
      | .error e => .error e
      | .ok tl => .ok (v :: tl)

/-- `retrieve_account_ids` (lines 191-201).  Runs on the main thread:
every `Except.error` here propagates out of `get_reports` and aborts the
run. -/
def retrieve_account_ids (config : TapConfig) (net : Net) : Except String (List PyVal) :=
  match net.me with
  | Option.none => .error "requests/json error on me"
  | some meBody =>
    match pySubscript meBody "id" with
    | Option.none => .error "KeyError: id"
    | some _user_id =>
      let account_params : Obj :=
        [("access_token", .str config.accessToken), ("fields", .str "id"),
         ("limit", .int MAX_PAGE_SIZE)]
      extractIds (retrieve_paged_data account_params net.accountEvents).items

/-- `retrieve_report_for_account` (lines 132-149) for one account.  The
`reporting_params` dict literal is evaluated in source order: the
`schema_map[self.stream]` lookup for `'fields'` runs (and, for an unknown
stream, raises) before the `time_range` dates are parsed.  The `account`,
`index` and `total` arguments only feed the URL and the log line, neither
of which is modelled. -/
def retrieve_report_for_account (stream : String) (props : List (String × String))
    (config : TapConfig) (events : List HttpEvent) : Except String (List Obj) :=
  let date_parts := splitOnComma config.dateRange
  match schemaMapLookup stream with
  | Option.none => .error "KeyError: unknown stream"
  | some cfg =>
    match parse_date (date_parts.getD 0 "") with
    | Option.none => .error "ValueError: strptime"
    | some since =>
      match date_parts.get? 1 with
      | Option.none => .error "IndexError: date_parts"
      | some p =>
        match parse_date p with
        | Option.none => .error "ValueError: strptime"
        | some untl =>
          let reporting_params : Obj :=
            [("access_token", .str config.accessToken),
             ("limit", .int MAX_PAGE_SIZE),
             ("fields", .str cfg.fields),
             ("time_range",
              .str ("\x7b\"since\": \"" ++ since ++ "\", \"until\": \"" ++ untl ++ "\"\x7d")),
             ("time_increment", .int 1),
             ("level", .str cfg.level)]
          let reporting_params := cfg.params.foldl
            (fun d kv => alistInsert d kv.1 (.str kv.2)) reporting_params
          mapRecords props cfg (retrieve_paged_data reporting_params events).items

/-- The per-account tasks submitted through
`executor.map(lambda arg: self.retrieve_report_for_account(...),
enumerate(account_ids))`.  `Executor.map` submits every task eagerly, so
each one runs to an outcome; the account id itself only feeds the URL.
The index selects that account's insights events. -/
def taskOutcomes (stream : String) (props : List (String × String)) (config : TapConfig)
    (revents : List (List HttpEvent)) : Nat → List PyVal → List (Except String (List Obj))
  | _, [] => []
  | i, _acc :: rest =>
      retrieve_report_for_account stream props config (revents.getD i []) ::
        taskOutcomes stream props config revents (i + 1) rest

/-- `get_reports` (lines 124-130).  `retrieve_account_ids` runs on the
main thread, so its exceptions propagate (`Except.error` = the run
aborts).  The iterator returned by `executor.map` is never consumed and
the `with` block only waits for completion, so exceptions raised inside
the per-account tasks stay in their unretrieved futures and are silently
discarded: `get_reports` finishes normally whatever the task outcomes
are.  The list of task outcomes is therefore returned as plain data, not
bound through `Except`. -/
def get_reports (stream : String) (props : List (String × String)) (config : TapConfig)
    (net : Net) : Except String (List (Except String (List Obj))) :=
  match retrieve_account_ids config net with
  | .error e => .error e
  | .ok account_ids => .ok (taskOutcomes stream props config net.reportEvents 0 account_ids)

/-! ## Dictionary lemmas -/

theorem alistLookup_insert_self {α : Type} (d : List (String × α)) (k : String) (v : α) :
    alistLookup (alistInsert d k v) k = some v := by
  induction d with
  | nil => simp [alistInsert, alistLookup]
  | cons hd tl ih =>
      obtain ⟨k', w⟩ := hd
      by_cases h : k' = k <;> simp [alistInsert, alistLookup, h, ih]

theorem alistLookup_insert_ne {α : Type} (d : List (String × α)) (k k' : String) (v : α)
    (h : k' ≠ k) : alistLookup (alistInsert d k v) k' = alistLookup d k' := by
  have h' : ¬(k = k') := fun hh => h hh.symm
  induction d with
  | nil => simp [alistInsert, alistLookup, h']
  | cons hd tl ih =>
      obtain ⟨k'', w⟩ := hd
      by_cases h1 : k'' = k
      · have h2 : ¬(k'' = k') := fun hh => h ((h1 ▸ hh).symm)
        simp [alistInsert, alistLookup, h1, h2, h']
      · by_cases h2 : k'' = k' <;> simp [alistInsert, alistLookup, h1, h2, h, ih]

theorem alistContains_insert_self {α : Type} (d : List (String × α)) (k : String) (v : α) :
    alistContains (alistInsert d k v) k = true := by
  simp [alistContains, alistLookup_insert_self]

theorem alistContains_insert_mono {α : Type} (d : List (String × α)) (k k' : String) (v : α)
    (h : alistContains d k' = true) : alistContains (alistInsert d k v) k' = true := by
  by_cases hk : k' = k
  · subst hk; exact alistContains_insert_self d k' v
  · simpa [alistContains, alistLookup_insert_ne d k k' v hk] using h

theorem alistInsert_insert_same {α : Type} (d : List (String × α)) (k : String) (v w : α) :
    alistInsert (alistInsert d k v) k w = alistInsert d k w := by
  induction d with
  | nil => simp [alistInsert]
  | cons hd tl ih =>
      obtain ⟨k', u⟩ := hd
      by_cases h : k' = k <;> simp [alistInsert, h, ih]

theorem alistLookup_mem {α : Type} (d : List (String × α)) (k : String) (v : α)
    (h : alistLookup d k = some v) : (k, v) ∈ d := by
  induction d with
  | nil => simp [alistLookup] at h
  | cons hd tl ih =>
      obtain ⟨k', w⟩ := hd
      by_cases h1 : k' = k
      · subst h1
        simp [alistLookup] at h
        simp [h]
      · simp [alistLookup, h1] at h
        exact List.mem_cons_of_mem _ (ih h)

/-! ## Paged-fetch lemmas -/

/-- A well-formed page envelope with a `next` link:
`\x7bdata: [...], paging: \x7bcursors: \x7bafter: c\x7d, next: ...\x7d\x7d`. -/
def pageBodyNext (d : List PyVal) (c : String) : PyVal :=
  .dict [("data", .list d),
         ("paging", .dict [("cursors", .dict [("after", .str c)]), ("next", .str "next_url")])]

/-- A final page envelope: cursors present, no `next` link. -/
def pageBodyLast (d : List PyVal) (c : String) : PyVal :=
  .dict [("data", .list d),
         ("paging", .dict [("cursors", .dict [("after", .str c)])])]

/-- A chain of pages, each as (its `data` array, its `after` cursor). -/
abbrev PageChain := List (List PyVal × String)

/-- Events for a complete pagination: every page but the last carries a
`next` link, the last carries none. -/
def chainEvents : PageChain → List HttpEvent
  | [] => []
  | [(d, c)] => [.ok (pageBodyLast d c)]
  | (d, c) :: rest => .ok (pageBodyNext d c) :: chainEvents rest

/-- Events for pages that all carry a `next` link (a pagination still in
progress). -/
def chainNextEvents : PageChain → List HttpEvent
  | [] => []
  | (d, c) :: rest => .ok (pageBodyNext d c) :: chainNextEvents rest

/-- The concatenation of the pages' `data` arrays, in page order. -/
def joinData : PageChain → List PyVal
  | [] => []
  | (d, _) :: rest => d ++ joinData rest

/-- The `after` token sent with the *last* request of a complete chain
(the previous page's cursor; the initial token for a one-page chain). -/
def lastTokUsed : PyVal → PageChain → PyVal
  | tok, [] => tok
  | tok, [_] => tok
  | _, (_, c) :: rest => lastTokUsed (.str c) rest

/-- The cursor of the last page of a chain (the token the request *after*
the chain would carry). -/
def lastCursor : PyVal → PageChain → PyVal
  | tok, [] => tok
  | _, (_, c) :: rest => lastCursor (.str c) rest

theorem go_params_contains (events : List HttpEvent) (params : Obj) (res : List PyVal)
    (tok : PyVal) (k : String) (h : alistContains params k = true) :
    alistContains (retrieve_paged_data_go events params res tok).params k = true := by
  induction events generalizing params res tok with
  | nil => simpa [retrieve_paged_data_go] using h
  | cons e rest ih =>
      have hp : alistContains (alistInsert params "after" tok) k = true :=
        alistContains_insert_mono params "after" k tok h
      cases e <;> simp only [retrieve_paged_data_go] <;>
        repeat first
          | exact hp
          | exact ih _ _ _ hp
          | exact ih _ _ _ (alistContains_insert_mono _ _ _ _ hp)
          | split

theorem go_limit_stays (events : List HttpEvent) (params : Obj) (res : List PyVal)
    (tok : PyVal) (h : alistLookup params "limit" = some (.int 1000)) :
    alistLookup (retrieve_paged_data_go events params res tok).params "limit" =
      some (.int 1000) := by
  induction events generalizing params res tok with
  | nil => simpa [retrieve_paged_data_go] using h
  | cons e rest ih =>
      have hp : alistLookup (alistInsert params "after" tok) "limit" = some (.int 1000) := by
        rw [alistLookup_insert_ne _ _ _ _ (by decide)]; exact h
      cases e with
      | exn => simpa [retrieve_paged_data_go] using hp
      | fail =>
          simp only [retrieve_paged_data_go]
          rw [hp]
          simp only [pyEqInt, MAX_PAGE_SIZE]
          norm_num
          exact hp
      | ok body =>
          simp only [retrieve_paged_data_go]
          repeat first
            | exact hp
            | exact ih _ _ _ hp
            | split

/-- The degraded retry (lines 213-216): a non-200 while `params['limit']`
equals `MAX_PAGE_SIZE` restarts the whole fetch from scratch with
`params['limit'] = 1000`. -/
theorem go_fail_degrade (events : List HttpEvent) (params : Obj) (res : List PyVal)
    (tok : PyVal) (h : alistLookup params "limit" = some (.int MAX_PAGE_SIZE)) :
    retrieve_paged_data_go (.fail :: events) params res tok =
      retrieve_paged_data_go events
        (alistInsert (alistInsert params "after" tok) "limit" (.int 1000)) [] (.str "") := by
  have hp : alistLookup (alistInsert params "after" tok) "limit" = some (.int MAX_PAGE_SIZE) := by
    rw [alistLookup_insert_ne _ _ _ _ (by decide)]; exact h
  simp only [retrieve_paged_data_go]
  rw [hp]
  simp [pyEqInt, MAX_PAGE_SIZE]

/-- Lines 217-219: a non-200 while the limit is anything other than the
maximum returns `[]` — no exception, no further retry. -/
theorem go_fail_lowered (events : List HttpEvent) (params : Obj) (res : List PyVal)
    (tok lim : PyVal) (h : alistLookup params "limit" = some lim)
    (hne : pyEqInt lim MAX_PAGE_SIZE = false) :
    retrieve_paged_data_go (.fail :: events) params res tok =
      ⟨[], alistInsert params "after" tok, .failedEmpty, events⟩ := by
  have hp : alistLookup (alistInsert params "after" tok) "limit" = some lim := by
    rw [alistLookup_insert_ne _ _ _ _ (by decide)]; exact h
  simp only [retrieve_paged_data_go]
  rw [hp]
  simp [hne]

/-- A complete chain of pages is consumed to the end: the items are the
pages' `data` arrays concatenated in page order, the loop ends through
`has_next_page = False`, and the caller's dict is left with the last
`after` token sent. -/
theorem go_chain (ps : PageChain) (dc : List PyVal × String) (params : Obj)
    (res : List PyVal) (tok : PyVal) :
    retrieve_paged_data_go (chainEvents (dc :: ps)) params res tok =
      ⟨res ++ joinData (dc :: ps),
       alistInsert params "after" (lastTokUsed tok (dc :: ps)), .completed, []⟩ := by
  induction ps generalizing dc params res tok with
  | nil =>
      obtain ⟨d, c⟩ := dc
      simp [chainEvents, retrieve_paged_data_go, pageBodyLast, pySubscript, alistLookup,
            pyContains, alistContains, joinData, lastTokUsed]
  | cons dc2 tl ih =>
      obtain ⟨d, c⟩ := dc
      simp [chainEvents, retrieve_paged_data_go, pageBodyNext, pySubscript, alistLookup,
            pyContains, alistContains]
      rw [ih]
      simp [joinData, lastTokUsed, alistInsert_insert_same]

/-- An exception after a run of successful pages lands in the `except`
handler: the accumulated items are returned as they are. -/
theorem go_chainNext_exn (ps : PageChain) (params : Obj) (res : List PyVal) (tok : PyVal)
    (rest : List HttpEvent) :
    retrieve_paged_data_go (chainNextEvents ps ++ HttpEvent.exn :: rest) params res tok =
      ⟨res ++ joinData ps,
       alistInsert params "after" (lastCursor tok ps), .caught, rest⟩ := by
  induction ps generalizing params res tok with
  | nil => simp [chainNextEvents, retrieve_paged_data_go, joinData, lastCursor]
  | cons dc tl ih =>
      obtain ⟨d, c⟩ := dc
      simp [chainNextEvents, retrieve_paged_data_go, pageBodyNext, pySubscript, alistLookup,
            pyContains, alistContains, List.cons_append]
      rw [ih]
      simp [joinData, lastCursor, alistInsert_insert_same]

theorem go_after_set (e : HttpEvent) (events : List HttpEvent) (params : Obj)
    (res : List PyVal) (tok : PyVal) :
    alistContains (retrieve_paged_data_go (e :: events) params res tok).params "after" = true := by
  have hp : alistContains (alistInsert params "after" tok) "after" = true :=
    alistContains_insert_self params "after" tok
  cases e <;> simp only [retrieve_paged_data_go] <;>
    repeat first
      | exact hp
      | exact go_params_contains _ _ _ _ _ hp
      | exact go_params_contains _ _ _ _ _ (alistContains_insert_mono _ _ _ _ hp)
      | split

/-- Spec-variant of the loop, used only to state claim C9 against the
code.  Modelled from the spec, section 4.1: "determine `hasNext` from the
presence of a `next` link inside an optional `paging` object; extract the
next cursor from `paging.cursors.after` when present, else clear it."  It
is `retrieve_paged_data_go` except that a missing `cursors`/`after` path
*clears* the token instead of raising. -/
def retrieve_paged_data_spec_go : List HttpEvent → Obj → List PyVal → PyVal → RpdRes
  | [], params, result, _tok => ⟨result, params, .starved, []⟩
  | e :: rest, params, result, tok =>
    let params' := alistInsert params "after" tok
    match e with
    | .exn => ⟨result, params', .caught, rest⟩
    | .fail =>
      match alistLookup params' "limit" with
      | Option.none => ⟨result, params', .caught, rest⟩
      | some lim =>
        if pyEqInt lim MAX_PAGE_SIZE then
          retrieve_paged_data_spec_go rest (alistInsert params' "limit" (.int 1000)) [] (.str "")
        else ⟨[], params', .failedEmpty, rest⟩
    | .ok body =>
      match pySubscript body "data" with
      | Option.none => ⟨result, params', .caught, rest⟩
      | some (.list pageItems) =>
        let result' := result ++ pageItems
        match pySubscript body "paging" with
        | Option.none => ⟨result', params', .completed, rest⟩
        | some paging =>
          match pyContains paging "next" with
          | Option.none => ⟨result', params', .caught, rest⟩
          | some hasNext =>
            let nextTok : PyVal :=
              match pySubscript paging "cursors" with
              | some cs =>
                match pySubscript cs "after" with
                | some t => t
                | Option.none => .str ""
              | Option.none => .str ""
            if hasNext then retrieve_paged_data_spec_go rest params' result' nextTok
            else ⟨result', params', .completed, rest⟩
      | some _ => ⟨result, params', .caught, rest⟩

/-- Spec-variant entry point (see `retrieve_paged_data_spec_go`). -/
def retrieve_paged_data_spec (params : Obj) (events : List HttpEvent) : RpdRes :=
  retrieve_paged_data_spec_go events params [] (.str "")

/-! ## Claims C4, C5, C8, C9, C10 -/

/-- **C4**: when some pages succeed and an unexpected exception then
occurs mid-pagination (the request or the parse raises), the fetch
returns exactly the items accumulated before the failure: the `except`
handler (`.caught`) stops the loop and `result` is returned as it is —
not `[]`, and no error reaches the caller. -/
theorem claim_C4 (ps : PageChain) (params : Obj) (rest : List HttpEvent) :
    retrieve_paged_data params (chainNextEvents ps ++ HttpEvent.exn :: rest) =
      ⟨joinData ps, alistInsert params "after" (lastCursor (.str "") ps), .caught, rest⟩ := by
  rw [retrieve_paged_data, go_chainNext_exn]
  simp

/-- **C5**: a non-200 while `params['limit'] == MAX_PAGE_SIZE` retries
the whole fetch once from scratch at limit 1000 and returns the retry's
data; a non-200 while the limit is already lowered returns `[]` with no
exception (`.failedEmpty` is a returned value, not a raise), and there is
no further degradation. -/
theorem claim_C5 :
    (∀ (params : Obj) (dc : List PyVal × String) (ps : PageChain),
        alistLookup params "limit" = some (.int MAX_PAGE_SIZE) →
        (retrieve_paged_data params (.fail :: chainEvents (dc :: ps))).items =
            joinData (dc :: ps) ∧
          (retrieve_paged_data params (.fail :: chainEvents (dc :: ps))).outcome = .completed ∧
          alistLookup (retrieve_paged_data params (.fail :: chainEvents (dc :: ps))).params
              "limit" = some (.int 1000))
  ∧ (∀ (params : Obj) (events : List HttpEvent),
        alistLookup params "limit" = some (.int MAX_PAGE_SIZE) →
        (retrieve_paged_data params (.fail :: .fail :: events)).items = [] ∧
          (retrieve_paged_data params (.fail :: .fail :: events)).outcome = .failedEmpty ∧
          (retrieve_paged_data params (.fail :: .fail :: events)).rest = events)
  ∧ (∀ (params : Obj) (events : List HttpEvent) (res : List PyVal) (tok lim : PyVal),
        alistLookup params "limit" = some lim → pyEqInt lim MAX_PAGE_SIZE = false →
        retrieve_paged_data_go (.fail :: events) params res tok =
          ⟨[], alistInsert params "after" tok, .failedEmpty, events⟩) := by
  refine ⟨?_, ?_, ?_⟩
  · intro params dc ps h
    rw [retrieve_paged_data, go_fail_degrade _ _ _ _ h, go_chain]
    refine ⟨by simp, rfl, ?_⟩
    rw [alistLookup_insert_ne _ _ _ _ (by decide), alistLookup_insert_self]
  · intro params events h
    rw [retrieve_paged_data, go_fail_degrade _ _ _ _ h,
        go_fail_lowered _ _ _ _ (.int 1000) (alistLookup_insert_self _ _ _) (by decide)]
    exact ⟨rfl, rfl, rfl⟩
  · intro params events res tok lim h hne
    exact go_fail_lowered _ _ _ _ _ h hne

/-- Witness for C5 at concrete inputs: a failure at limit 5000 followed
by a successful one-page chain yields that page's item; two failures
yield `[]`. -/
theorem claim_C5_witness :
    ((retrieve_paged_data [("limit", PyVal.int 5000)]
        (.fail :: chainEvents [([.str "x"], "c")])).items = [PyVal.str "x"])
  ∧ ((retrieve_paged_data [("limit", PyVal.int 5000)] [.fail, .fail]).items = []) := by
  constructor
  · exact ((claim_C5.1 [("limit", .int 5000)] ([.str "x"], "c") [] rfl).1).trans rfl
  · exact (claim_C5.2.1 [("limit", .int 5000)] [] rfl).1

/-- **C8**: successful pages are concatenated in page order, the loop
continuing until a page carries no `next` link; in particular 3 chained
pages of 2 items each yield exactly those 6 items in order. -/
theorem claim_C8 :
    (∀ (dc : List PyVal × String) (ps : PageChain) (params : Obj),
        retrieve_paged_data params (chainEvents (dc :: ps)) =
          ⟨joinData (dc :: ps),
           alistInsert params "after" (lastTokUsed (.str "") (dc :: ps)), .completed, []⟩)
  ∧ (retrieve_paged_data [("limit", PyVal.int 5000)]
        (chainEvents [([.str "i1", .str "i2"], "c1"), ([.str "i3", .str "i4"], "c2"),
                      ([.str "i5", .str "i6"], "c3")])).items =
      [.str "i1", .str "i2", .str "i3", .str "i4", .str "i5", .str "i6"] := by
  constructor
  · intro dc ps params
    rw [retrieve_paged_data, go_chain]
    simp
  · rfl

/-- **C9** (corrected): `hasNext` does come from the presence of `next`
in the optional `paging` object, and the cursor from
`paging.cursors.after`; the cursor is cleared only when `paging` itself
is absent.  When `paging` is present but `cursors` (or `after` inside it)
is missing, line 223 raises a KeyError that the `except` handler turns
into returning the accumulated items — the cursor is not cleared and the
loop does not continue. -/
theorem claim_C9 :
    (∀ (bd : Obj) (d : List PyVal) (rest : List HttpEvent) (params : Obj) (res : List PyVal)
        (tok : PyVal),
        alistLookup bd "data" = some (.list d) →
        alistLookup bd "paging" = Option.none →
        retrieve_paged_data_go (.ok (.dict bd) :: rest) params res tok =
          ⟨res ++ d, alistInsert params "after" tok, .completed, rest⟩)
  ∧ (∀ (bd paging cursors : Obj) (d : List PyVal) (t : PyVal) (rest : List HttpEvent)
        (params : Obj) (res : List PyVal) (tok : PyVal),
        alistLookup bd "data" = some (.list d) →
        alistLookup bd "paging" = some (.dict paging) →
        alistContains paging "next" = true →
        alistLookup paging "cursors" = some (.dict cursors) →
        alistLookup cursors "after" = some t →
        retrieve_paged_data_go (.ok (.dict bd) :: rest) params res tok =
          retrieve_paged_data_go rest (alistInsert params "after" tok) (res ++ d) t)
  ∧ (∀ (bd paging : Obj) (d : List PyVal) (rest : List HttpEvent) (params : Obj)
        (res : List PyVal) (tok : PyVal),
        alistLookup bd "data" = some (.list d) →
        alistLookup bd "paging" = some (.dict paging) →
        alistLookup paging "cursors" = Option.none →
        retrieve_paged_data_go (.ok (.dict bd) :: rest) params res tok =
          ⟨res ++ d, alistInsert params "after" tok, .caught, rest⟩)
  ∧ (∀ (bd paging cursors : Obj) (d : List PyVal) (rest : List HttpEvent) (params : Obj)
        (res : List PyVal) (tok : PyVal),
        alistLookup bd "data" = some (.list d) →
        alistLookup bd "paging" = some (.dict paging) →
        alistLookup paging "cursors" = some (.dict cursors) →
        alistLookup cursors "after" = Option.none →
        retrieve_paged_data_go (.ok (.dict bd) :: rest) params res tok =
          ⟨res ++ d, alistInsert params "after" tok, .caught, rest⟩)
  ∧ (∀ (bd paging cursors : Obj) (d : List PyVal) (t : PyVal) (rest : List HttpEvent)
        (params : Obj) (res : List PyVal) (tok : PyVal),
        alistLookup bd "data" = some (.list d) →
        alistLookup bd "paging" = some (.dict paging) →
        alistContains paging "next" = false →
        alistLookup paging "cursors" = some (.dict cursors) →
        alistLookup cursors "after" = some t →
        retrieve_paged_data_go (.ok (.dict bd) :: rest) params res tok =
          ⟨res ++ d, alistInsert params "after" tok, .completed, rest⟩) := by
  refine ⟨?_, ?_, ?_, ?_, ?_⟩
  · intro bd d rest params res tok h1 h2
    simp [retrieve_paged_data_go, pySubscript, h1, h2]
  · intro bd paging cursors d t rest params res tok h1 h2 h3 h4 h5
    simp [retrieve_paged_data_go, pySubscript, pyContains, h1, h2, h3, h4, h5]
  · intro bd paging d rest params res tok h1 h2 h3
    simp [retrieve_paged_data_go, pySubscript, pyContains, h1, h2, h3]
  · intro bd paging cursors d rest params res tok h1 h2 h3 h4
    simp [retrieve_paged_data_go, pySubscript, pyContains, h1, h2, h3, h4]
  · intro bd paging cursors d t rest params res tok h1 h2 h3 h4 h5
    simp [retrieve_paged_data_go, pySubscript, pyContains, h1, h2, h3, h4, h5]

/-- A page body with a `next` link but no `cursors` object (the shape
that falsifies claim C9 as stated). -/
def c9body1 : PyVal := .dict [("data", .list [.str "a"]), ("paging", .dict [("next", .str "u")])]

/-- A follow-up page the spec-variant would fetch. -/
def c9body2 : PyVal := .dict [("data", .list [.str "b"])]

/-- Counterexample to C9 as stated: on a page whose `paging` has `next`
but no `cursors`, the code does not clear the cursor and continue — it
raises, the handler returns `[a]` and the next page is never requested —
while the fetch as the spec words it would continue with a cleared cursor
and return `[a, b]`. -/
theorem claim_C9_cex :
    (retrieve_paged_data [("limit", PyVal.int 5000)] [.ok c9body1, .ok c9body2]).items =
        [PyVal.str "a"]
  ∧ (retrieve_paged_data [("limit", PyVal.int 5000)] [.ok c9body1, .ok c9body2]).outcome =
        .caught
  ∧ (retrieve_paged_data [("limit", PyVal.int 5000)] [.ok c9body1, .ok c9body2]).rest =
        [.ok c9body2]
  ∧ (retrieve_paged_data_spec [("limit", PyVal.int 5000)] [.ok c9body1, .ok c9body2]).items =
        [PyVal.str "a", PyVal.str "b"]
  ∧ ([PyVal.str "a"] : List PyVal) ≠ [PyVal.str "a", PyVal.str "b"] := by
  refine ⟨rfl, rfl, rfl, rfl, by simp⟩

/-- Witness for the C9 theorem at a concrete input (hypotheses
discharged by evaluation): the cursors-missing branch. -/
theorem claim_C9_witness :
    retrieve_paged_data_go [.ok c9body1] [("limit", PyVal.int 5000)] [] (.str "") =
      ⟨[PyVal.str "a"],
       alistInsert [("limit", PyVal.int 5000)] "after" (.str ""), .caught, []⟩ := by
  exact claim_C9.2.2.1 [("data", .list [.str "a"]), ("paging", .dict [("next", .str "u")])]
    [("next", PyVal.str "u")] [.str "a"] [] [("limit", PyVal.int 5000)] [] (.str "")
    rfl rfl rfl

/-- **C10**: the caller's `params` dict is mutated: `'after'` is set on
every iteration (after a complete chain it holds the token sent with the
last request), a degraded retry permanently lowers `'limit'` to 1000 in
the caller's dict, and the dict is never handed back unchanged. -/
theorem claim_C10 :
    (∀ (e : HttpEvent) (events : List HttpEvent) (params : Obj) (res : List PyVal)
        (tok : PyVal),
        alistContains (retrieve_paged_data_go (e :: events) params res tok).params "after" =
          true)
  ∧ (∀ (params : Obj) (events : List HttpEvent),
        alistLookup params "limit" = some (.int MAX_PAGE_SIZE) →
        alistLookup (retrieve_paged_data params (.fail :: events)).params "limit" =
          some (.int 1000))
  ∧ (∀ (params : Obj) (e : HttpEvent) (events : List HttpEvent),
        alistContains params "after" = false →
        (retrieve_paged_data params (e :: events)).params ≠ params)
  ∧ (∀ (dc : List PyVal × String) (ps : PageChain) (params : Obj),
        alistLookup (retrieve_paged_data params (chainEvents (dc :: ps))).params "after" =
          some (lastTokUsed (.str "") (dc :: ps))) := by
  refine ⟨?_, ?_, ?_, ?_⟩
  · intro e events params res tok
    exact go_after_set e events params res tok
  · intro params events h
    rw [retrieve_paged_data, go_fail_degrade _ _ _ _ h]
    exact go_limit_stays _ _ _ _ (alistLookup_insert_self _ _ _)
  · intro params e events h heq
    have hset := go_after_set e events params [] (.str "")
    rw [show retrieve_paged_data_go (e :: events) params [] (.str "") =
          retrieve_paged_data params (e :: events) from rfl, heq] at hset
    rw [hset] at h
    exact Bool.noConfusion h

  · intro dc ps params
    rw [retrieve_paged_data, go_chain]
    exact alistLookup_insert_self _ _ _

/-- Witness for C10 at concrete inputs. -/
theorem claim_C10_witness :
    (alistContains (retrieve_paged_data_go [HttpEvent.exn] [] [] (.str "")).params "after" =
        true)
  ∧ (alistLookup (retrieve_paged_data [("limit", PyVal.int 5000)] [.fail]).params "limit" =
        some (.int 1000))
  ∧ ((retrieve_paged_data [("limit", PyVal.int 5000)] [HttpEvent.exn]).params ≠
        [("limit", PyVal.int 5000)])
  ∧ (alistLookup
        (retrieve_paged_data [("limit", PyVal.int 5000)]
          (chainEvents [([.str "a"], "c")])).params "after" = some (.str "")) := by
  refine ⟨claim_C10.1 .exn [] [] [] (.str ""), claim_C10.2.1 [("limit", .int 5000)] [] rfl,
    claim_C10.2.2.1 [("limit", .int 5000)] .exn [] rfl, ?_⟩
  exact claim_C10.2.2.2 ([.str "a"], "c") [] [("limit", .int 5000)]


/-! ## `map_record` lemmas -/

theorem mapStep1_cons_elim (k0 ty0 : String) (rest : List (String × String)) (item : PyVal)
    (obj obj' : Obj) (h : mapStep1 ((k0, ty0) :: rest) item obj = .ok obj') :
    ∃ v, coerceProp item k0 ty0 = .ok v ∧ mapStep1 rest item (alistInsert obj k0 v) = .ok obj' := by
  simp only [mapStep1] at h
  split at h
  · exact Except.noConfusion h
  · rename_i v hv
    exact ⟨v, hv, h⟩

theorem foldActions_cons_elim (a : PyVal) (rest : List PyVal) (obj obj' : Obj)
    (h : foldActions obj (a :: rest) = .ok obj') :
    ∃ v n t, pySubscript a "value" = some v ∧ pyToInt v = some n ∧
      pySubscript a "action_type" = some (.str t) ∧
      foldActions (alistInsert obj (actionKey t) (.int n)) rest = .ok obj' := by
  simp only [foldActions] at h
  split at h
  · exact Except.noConfusion h
  · rename_i v hv
    split at h
    · exact Except.noConfusion h
    · rename_i n hn
      split at h
      · rename_i t ht
        exact ⟨v, n, t, hv, hn, ht, h⟩
      · exact Except.noConfusion h

theorem foldUnique_cons_elim (a : PyVal) (rest : List PyVal) (obj obj' : Obj)
    (h : foldUnique obj (a :: rest) = .ok obj') :
    ∃ v n, pySubscript a "value" = some v ∧ pyToInt v = some n ∧
      foldUnique (alistInsert obj "unique_link_clicks" (.int n)) rest = .ok obj' := by
  simp only [foldUnique] at h
  split at h
  · exact Except.noConfusion h
  · rename_i v hv
    split at h
    · exact Except.noConfusion h
    · rename_i n hn
      exact ⟨v, n, hv, hn, h⟩

theorem foldActionValues_cons_elim (a : PyVal) (rest : List PyVal) (obj obj' : Obj)
    (h : foldActionValues obj (a :: rest) = .ok obj') :
    ∃ v q, pySubscript a "value" = some v ∧ pyToFloat v = some q ∧
      foldActionValues (alistInsert obj "offline_conversion_purchase_value" (.float q)) rest =
        .ok obj' := by
  simp only [foldActionValues] at h
  split at h
  · exact Except.noConfusion h
  · rename_i v hv
    split at h
    · exact Except.noConfusion h
    · rename_i q hq
      exact ⟨v, q, hv, hq, h⟩

theorem filterByType_cons_elim (pred : PyVal → Bool) (a : PyVal) (rest fs : List PyVal)
    (h : filterByType pred (a :: rest) = .ok fs) :
    ∃ tv tl, entryType a = .ok tv ∧ filterByType pred rest = .ok tl ∧
      fs = (if pred tv then a :: tl else tl) := by
  simp only [filterByType] at h
  split at h
  · exact Except.noConfusion h
  · rename_i tv htv
    split at h
    · exact Except.noConfusion h
    · rename_i tl htl
      exact ⟨tv, tl, htv, htl, (Except.ok.inj h).symm⟩

theorem mapStepActions_elim (cfg : StreamCfg) (item : PyVal) (obj obj' : Obj)
    (h : mapStepActions cfg item obj = .ok obj') :
    (pyContains item "actions" = some false ∧ obj' = obj) ∨
    (∃ entries fs, pySubscript item "actions" = some (.list entries) ∧
      filterByType (predActions cfg) entries = .ok fs ∧ foldActions obj fs = .ok obj') := by
  simp only [mapStepActions] at h
  split at h
  · exact Except.noConfusion h
  · rename_i hm
    exact Or.inl ⟨hm, (Except.ok.inj h).symm⟩
  · rename_i hm
    split at h
    · rename_i entries hs
      split at h
      · exact Except.noConfusion h
      · rename_i fs hf
        exact Or.inr ⟨entries, fs, hs, hf, h⟩
    · exact Except.noConfusion h

theorem mapStepUnique_elim (item : PyVal) (obj obj' : Obj)
    (h : mapStepUnique item obj = .ok obj') :
    (pyContains item "unique_actions" = some false ∧ obj' = obj) ∨
    (∃ entries fs, pySubscript item "unique_actions" = some (.list entries) ∧
      filterByType predUnique entries = .ok fs ∧ foldUnique obj fs = .ok obj') := by
  simp only [mapStepUnique] at h
  split at h
  · exact Except.noConfusion h
  · rename_i hm
    exact Or.inl ⟨hm, (Except.ok.inj h).symm⟩
  · rename_i hm
    split at h
    · rename_i entries hs
      split at h
      · exact Except.noConfusion h
      · rename_i fs hf
        exact Or.inr ⟨entries, fs, hs, hf, h⟩
    · exact Except.noConfusion h

theorem mapStepActionValues_elim (cfg : StreamCfg) (item : PyVal) (obj obj' : Obj)
    (h : mapStepActionValues cfg item obj = .ok obj') :
    (cfg.action_values = false ∧ obj' = obj) ∨
    (pyContains item "action_values" = some false ∧ obj' = obj) ∨
    (∃ entries fs, pySubscript item "action_values" = some (.list entries) ∧
      filterByType predActionValues entries = .ok fs ∧ foldActionValues obj fs = .ok obj') := by
  simp only [mapStepActionValues] at h
  split at h
  · split at h
    · exact Except.noConfusion h
    · rename_i hm
      exact Or.inr (Or.inl ⟨hm, (Except.ok.inj h).symm⟩)
    · rename_i hm
      split at h
      · rename_i entries hs
        split at h
        · exact Except.noConfusion h
        · rename_i fs hf
          exact Or.inr (Or.inr ⟨entries, fs, hs, hf, h⟩)
      · exact Except.noConfusion h
  · rename_i hav
    exact Or.inl ⟨Bool.of_not_eq_true hav, (Except.ok.inj h).symm⟩

theorem mapStepReportDate_elim (item : PyVal) (obj obj' : Obj)
    (h : mapStepReportDate item obj = .ok obj') :
    ∃ v, pySubscript item "date_start" = some v ∧ obj' = alistInsert obj "report_date" v := by
  simp only [mapStepReportDate] at h
  split at h
  · exact Except.noConfusion h
  · rename_i v hv
    exact ⟨v, hv, (Except.ok.inj h).symm⟩

theorem mapStepVideo_elim (item : PyVal) (obj obj' : Obj)
    (h : mapStepVideo item obj = .ok obj') :
    (alistContains obj "video_views_p100" = false ∧ obj' = obj) ∨
    (∃ m : Int, obj' = alistInsert obj "video_views_p100" (.int m)) := by
  simp only [mapStepVideo] at h
  split at h
  · split at h
    · exact Except.noConfusion h
    · exact Or.inr ⟨0, (Except.ok.inj h).symm⟩
    · split at h
      · exact Except.noConfusion h
      · split at h
        · exact Except.noConfusion h
        · split at h
          · exact Except.noConfusion h
          · split at h
            · exact Except.noConfusion h
            · rename_i n hn
              exact Or.inr ⟨n, (Except.ok.inj h).symm⟩
  · rename_i hvk
    exact Or.inl ⟨Bool.of_not_eq_true hvk, (Except.ok.inj h).symm⟩

theorem map_record_elim (props : List (String × String)) (cfg : StreamCfg) (item : PyVal)
    (obj : Obj) (h : map_record props cfg item = .ok obj) :
    ∃ o1 o2 o3 o4 o5, mapStep1 props item [] = .ok o1 ∧ mapStepActions cfg item o1 = .ok o2 ∧
      mapStepUnique item o2 = .ok o3 ∧ mapStepActionValues cfg item o3 = .ok o4 ∧
      mapStepReportDate item o4 = .ok o5 ∧ mapStepVideo item o5 = .ok obj := by
  simp only [map_record] at h
  split at h
  · exact Except.noConfusion h
  · rename_i o1 h1
    split at h
    · exact Except.noConfusion h
    · rename_i o2 h2
      split at h
      · exact Except.noConfusion h
      · rename_i o3 h3
        split at h
        · exact Except.noConfusion h
        · rename_i o4 h4
          split at h
          · exact Except.noConfusion h
          · rename_i o5 h5
            exact ⟨o1, o2, o3, o4, o5, h1, h2, h3, h4, h5, h⟩

theorem foldActions_contains_mono (fs : List PyVal) (obj obj' : Obj) (k : String)
    (h : foldActions obj fs = .ok obj') (hc : alistContains obj k = true) :
    alistContains obj' k = true := by
  induction fs generalizing obj with
  | nil => simp only [foldActions] at h; exact (Except.ok.inj h) ▸ hc
  | cons a rest ih =>
      obtain ⟨v, n, t, _, _, _, h'⟩ := foldActions_cons_elim a rest obj obj' h
      exact ih _ h' (alistContains_insert_mono _ _ _ _ hc)

theorem foldUnique_contains_mono (fs : List PyVal) (obj obj' : Obj) (k : String)
    (h : foldUnique obj fs = .ok obj') (hc : alistContains obj k = true) :
    alistContains obj' k = true := by
  induction fs generalizing obj with
  | nil => simp only [foldUnique] at h; exact (Except.ok.inj h) ▸ hc
  | cons a rest ih =>
      obtain ⟨v, n, _, _, h'⟩ := foldUnique_cons_elim a rest obj obj' h
      exact ih _ h' (alistContains_insert_mono _ _ _ _ hc)

theorem foldActionValues_contains_mono (fs : List PyVal) (obj obj' : Obj) (k : String)
    (h : foldActionValues obj fs = .ok obj') (hc : alistContains obj k = true) :
    alistContains obj' k = true := by
  induction fs generalizing obj with
  | nil => simp only [foldActionValues] at h; exact (Except.ok.inj h) ▸ hc
  | cons a rest ih =>
      obtain ⟨v, q, _, _, h'⟩ := foldActionValues_cons_elim a rest obj obj' h
      exact ih _ h' (alistContains_insert_mono _ _ _ _ hc)

theorem mapStepActions_contains_mono (cfg : StreamCfg) (item : PyVal) (obj obj' : Obj)
    (k : String) (h : mapStepActions cfg item obj = .ok obj')
    (hc : alistContains obj k = true) : alistContains obj' k = true := by
  rcases mapStepActions_elim cfg item obj obj' h with ⟨_, rfl⟩ | ⟨entries, fs, _, _, hfold⟩
  · exact hc
  · exact foldActions_contains_mono fs obj obj' k hfold hc

theorem mapStepUnique_contains_mono (item : PyVal) (obj obj' : Obj) (k : String)
    (h : mapStepUnique item obj = .ok obj') (hc : alistContains obj k = true) :
    alistContains obj' k = true := by
  rcases mapStepUnique_elim item obj obj' h with ⟨_, rfl⟩ | ⟨entries, fs, _, _, hfold⟩
  · exact hc
  · exact foldUnique_contains_mono fs obj obj' k hfold hc

theorem mapStepActionValues_contains_mono (cfg : StreamCfg) (item : PyVal) (obj obj' : Obj)
    (k : String) (h : mapStepActionValues cfg item obj = .ok obj')
    (hc : alistContains obj k = true) : alistContains obj' k = true := by
  rcases mapStepActionValues_elim cfg item obj obj' h with ⟨_, rfl⟩ | ⟨_, rfl⟩ |
    ⟨entries, fs, _, _, hfold⟩
  · exact hc
  · exact hc
  · exact foldActionValues_contains_mono fs obj obj' k hfold hc

theorem mapStepReportDate_contains_mono (item : PyVal) (obj obj' : Obj) (k : String)
    (h : mapStepReportDate item obj = .ok obj') (hc : alistContains obj k = true) :
    alistContains obj' k = true := by
  obtain ⟨v, _, rfl⟩ := mapStepReportDate_elim item obj obj' h
  exact alistContains_insert_mono _ _ _ _ hc

theorem mapStepVideo_contains_mono (item : PyVal) (obj obj' : Obj) (k : String)
    (h : mapStepVideo item obj = .ok obj') (hc : alistContains obj k = true) :
    alistContains obj' k = true := by
  rcases mapStepVideo_elim item obj obj' h with ⟨_, rfl⟩ | ⟨m, rfl⟩
  · exact hc
  · exact alistContains_insert_mono _ _ _ _ hc

theorem foldActions_lookup_untouched (fs : List PyVal) (obj obj' : Obj) (k : String)
    (hk : ∀ x ∈ fs, ∀ t, pySubscript x "action_type" = some (.str t) → actionKey t ≠ k)
    (h : foldActions obj fs = .ok obj') : alistLookup obj' k = alistLookup obj k := by
  induction fs generalizing obj with
  | nil => simp only [foldActions] at h; rw [Except.ok.inj h]
  | cons a rest ih =>
      obtain ⟨v, n, t, _, _, ht, h'⟩ := foldActions_cons_elim a rest obj obj' h
      have hne : k ≠ actionKey t :=
        fun hk' => hk a (List.mem_cons_self a rest) t ht hk'.symm
      rw [ih _ (fun x hx => hk x (List.mem_cons_of_mem a hx)) h',
          alistLookup_insert_ne _ _ _ _ hne]

theorem foldUnique_lookup_untouched (fs : List PyVal) (obj obj' : Obj) (k : String)
    (hk : k ≠ "unique_link_clicks") (h : foldUnique obj fs = .ok obj') :
    alistLookup obj' k = alistLookup obj k := by
  induction fs generalizing obj with
  | nil => simp only [foldUnique] at h; rw [Except.ok.inj h]
  | cons a rest ih =>
      obtain ⟨v, n, _, _, h'⟩ := foldUnique_cons_elim a rest obj obj' h
      rw [ih _ h', alistLookup_insert_ne _ _ _ _ hk]

theorem foldActionValues_lookup_untouched (fs : List PyVal) (obj obj' : Obj) (k : String)
    (hk : k ≠ "offline_conversion_purchase_value") (h : foldActionValues obj fs = .ok obj') :
    alistLookup obj' k = alistLookup obj k := by
  induction fs generalizing obj with
  | nil => simp only [foldActionValues] at h; rw [Except.ok.inj h]
  | cons a rest ih =>
      obtain ⟨v, q, _, _, h'⟩ := foldActionValues_cons_elim a rest obj obj' h
      rw [ih _ h', alistLookup_insert_ne _ _ _ _ hk]

theorem filterByType_mem (pred : PyVal → Bool) (as fs : List PyVal)
    (h : filterByType pred as = .ok fs) :
    ∀ x ∈ fs, x ∈ as ∧ ∃ tv, entryType x = .ok tv ∧ pred tv = true := by
  induction as generalizing fs with
  | nil =>
      simp only [filterByType] at h
      intro x hx
      rw [← Except.ok.inj h] at hx
      exact absurd hx (List.not_mem_nil x)
  | cons a rest ih =>
      obtain ⟨tv, tl, htv, htl, hfs⟩ := filterByType_cons_elim pred a rest fs h
      intro x hx
      rw [hfs] at hx
      by_cases hp : pred tv = true
      · rw [if_pos hp] at hx
        rcases List.mem_cons.mp hx with rfl | hx'
        · exact ⟨List.mem_cons_self x rest, tv, htv, hp⟩
        · obtain ⟨hmem, w⟩ := ih tl htl x hx'
          exact ⟨List.mem_cons_of_mem a hmem, w⟩
      · rw [if_neg hp] at hx
        obtain ⟨hmem, w⟩ := ih tl htl x hx
        exact ⟨List.mem_cons_of_mem a hmem, w⟩

theorem mapStepActions_lookup_untouched (cfg : StreamCfg) (item : PyVal) (obj obj' : Obj)
    (k : String)
    (hk : ∀ entries, pySubscript item "actions" = some (.list entries) →
      ∀ a ∈ entries, ∀ t, pySubscript a "action_type" = some (.str t) → actionKey t ≠ k)
    (h : mapStepActions cfg item obj = .ok obj') :
    alistLookup obj' k = alistLookup obj k := by
  rcases mapStepActions_elim cfg item obj obj' h with ⟨_, rfl⟩ | ⟨entries, fs, hs, hf, hfold⟩
  · rfl
  · refine foldActions_lookup_untouched fs obj obj' k ?_ hfold
    intro x hx t ht
    exact hk entries hs x (filterByType_mem _ _ _ hf x hx).1 t ht

theorem mapStepUnique_lookup_untouched (item : PyVal) (obj obj' : Obj) (k : String)
    (hk : k ≠ "unique_link_clicks") (h : mapStepUnique item obj = .ok obj') :
    alistLookup obj' k = alistLookup obj k := by
  rcases mapStepUnique_elim item obj obj' h with ⟨_, rfl⟩ | ⟨entries, fs, _, _, hfold⟩
  · rfl
  · exact foldUnique_lookup_untouched fs obj obj' k hk hfold

theorem mapStepActionValues_lookup_untouched (cfg : StreamCfg) (item : PyVal) (obj obj' : Obj)
    (k : String) (hk : k ≠ "offline_conversion_purchase_value")
    (h : mapStepActionValues cfg item obj = .ok obj') :
    alistLookup obj' k = alistLookup obj k := by
  rcases mapStepActionValues_elim cfg item obj obj' h with ⟨_, rfl⟩ | ⟨_, rfl⟩ |
    ⟨entries, fs, _, _, hfold⟩
  · rfl
  · rfl
  · exact foldActionValues_lookup_untouched fs obj obj' k hk hfold

theorem mapStepReportDate_lookup_untouched (item : PyVal) (obj obj' : Obj) (k : String)
    (hk : k ≠ "report_date") (h : mapStepReportDate item obj = .ok obj') :
    alistLookup obj' k = alistLookup obj k := by
  obtain ⟨v, _, rfl⟩ := mapStepReportDate_elim item obj obj' h
  exact alistLookup_insert_ne _ _ _ _ hk

theorem mapStepVideo_lookup_untouched (item : PyVal) (obj obj' : Obj) (k : String)
    (hk : k ≠ "video_views_p100") (h : mapStepVideo item obj = .ok obj') :
    alistLookup obj' k = alistLookup obj k := by
  rcases mapStepVideo_elim item obj obj' h with ⟨_, rfl⟩ | ⟨m, rfl⟩
  · rfl
  · exact alistLookup_insert_ne _ _ _ _ hk

theorem mapStep1_contains_mono (props : List (String × String)) (item : PyVal)
    (obj obj' : Obj) (k : String) (h : mapStep1 props item obj = .ok obj')
    (hc : alistContains obj k = true) : alistContains obj' k = true := by
  induction props generalizing obj with
  | nil => simp only [mapStep1] at h; exact (Except.ok.inj h) ▸ hc
  | cons p rest ih =>
      obtain ⟨k0, ty0⟩ := p
      obtain ⟨v, _, h'⟩ := mapStep1_cons_elim k0 ty0 rest item obj obj' h
      exact ih _ h' (alistContains_insert_mono _ _ _ _ hc)

theorem mapStep1_contains (props : List (String × String)) (item : PyVal) (obj obj' : Obj)
    (k ty : String) (hmem : (k, ty) ∈ props) (h : mapStep1 props item obj = .ok obj') :
    alistContains obj' k = true := by
  induction props generalizing obj with
  | nil => exact absurd hmem (List.not_mem_nil _)
  | cons p rest ih =>
      obtain ⟨k0, ty0⟩ := p
      obtain ⟨v, hv, h'⟩ := mapStep1_cons_elim k0 ty0 rest item obj obj' h
      rcases List.mem_cons.mp hmem with heq | hmem'
      · injection heq with h1 h2
        subst h1
        exact mapStep1_contains_mono rest item _ obj' k h'
          (alistContains_insert_self obj k v)
      · exact ih _ hmem' h'

theorem mapStep1_lookup_untouched (props : List (String × String)) (item : PyVal)
    (obj obj' : Obj) (k : String) (hk : k ∉ props.map Prod.fst)
    (h : mapStep1 props item obj = .ok obj') :
    alistLookup obj' k = alistLookup obj k := by
  induction props generalizing obj with
  | nil => simp only [mapStep1] at h; rw [Except.ok.inj h]
  | cons p rest ih =>
      obtain ⟨k0, ty0⟩ := p
      obtain ⟨v, hv, h'⟩ := mapStep1_cons_elim k0 ty0 rest item obj obj' h
      simp only [List.map_cons, List.mem_cons] at hk
      push_neg at hk
      rw [ih _ (by simpa using hk.2) h', alistLookup_insert_ne _ _ _ _ hk.1]

theorem mapStep1_lookup (props : List (String × String)) (item : PyVal) (obj obj' : Obj)
    (k ty : String) (hnd : (props.map Prod.fst).Nodup) (hmem : (k, ty) ∈ props)
    (h : mapStep1 props item obj = .ok obj') :
    ∃ v, coerceProp item k ty = .ok v ∧ alistLookup obj' k = some v := by
  induction props generalizing obj with
  | nil => exact absurd hmem (List.not_mem_nil _)
  | cons p rest ih =>
      obtain ⟨k0, ty0⟩ := p
      obtain ⟨v, hv, h'⟩ := mapStep1_cons_elim k0 ty0 rest item obj obj' h
      simp only [List.map_cons, List.nodup_cons] at hnd
      rcases List.mem_cons.mp hmem with heq | hmem'
      · injection heq with h1 h2
        subst h1; subst h2
        refine ⟨v, hv, ?_⟩
        rw [mapStep1_lookup_untouched rest item _ obj' k hnd.1 h',
            alistLookup_insert_self]
      · exact ih _ hnd.2 hmem' h'

/-! ## Claims C6 and C7 -/

/-- The fixed output keys written by the derivation steps after the
schema projection (lines 173-188): `report_date` always,
`unique_link_clicks`, `offline_conversion_purchase_value` and
`video_views_p100` conditionally. -/
def derivedFixedKeys : List String :=
  ["report_date", "unique_link_clicks", "offline_conversion_purchase_value",
   "video_views_p100"]

/-- No entry of the raw item's `actions` array derives the output key
`k` (so the actions extraction of lines 173-176 cannot overwrite it). -/
def actionsUntouched (item : PyVal) (k : String) : Prop :=
  ∀ entries, pySubscript item "actions" = some (.list entries) →
    ∀ a ∈ entries, ∀ t, pySubscript a "action_type" = some (.str t) → actionKey t ≠ k

/-- **C6** (corrected): every key declared in the destination schema is
present in the mapped output record; and its value is the coerced raw
value (when the key is in the raw item) or the type default `0` / `""`
(when absent) — *except* for the keys the later derivation steps write
(`report_date` is always overwritten with `date_start`, and action-derived
keys, `unique_link_clicks`, `offline_conversion_purchase_value` and
`video_views_p100` receive derived values). -/
theorem claim_C6 (props : List (String × String)) (cfg : StreamCfg) (item : PyVal)
    (obj : Obj) (k ty : String) (h : map_record props cfg item = .ok obj)
    (hmem : (k, ty) ∈ props) :
    alistContains obj k = true ∧
    ((props.map Prod.fst).Nodup → k ∉ derivedFixedKeys → actionsUntouched item k →
      ∃ v, coerceProp item k ty = .ok v ∧ alistLookup obj k = some v) := by
  obtain ⟨o1, o2, o3, o4, o5, h1, h2, h3, h4, h5, h6⟩ := map_record_elim props cfg item obj h
  constructor
  · exact mapStepVideo_contains_mono _ _ _ _ h6
      (mapStepReportDate_contains_mono _ _ _ _ h5
        (mapStepActionValues_contains_mono _ _ _ _ _ h4
          (mapStepUnique_contains_mono _ _ _ _ h3
            (mapStepActions_contains_mono _ _ _ _ _ h2
              (mapStep1_contains props item [] o1 k ty hmem h1)))))
  · intro hnd hkres hact
    obtain ⟨v, hv, hl⟩ := mapStep1_lookup props item [] o1 k ty hnd hmem h1
    simp only [derivedFixedKeys, List.mem_cons, List.not_mem_nil, or_false] at hkres
    push_neg at hkres
    refine ⟨v, hv, ?_⟩
    rw [mapStepVideo_lookup_untouched _ _ _ _ hkres.2.2.2 h6,
        mapStepReportDate_lookup_untouched _ _ _ _ hkres.1 h5,
        mapStepActionValues_lookup_untouched _ _ _ _ _ hkres.2.2.1 h4,
        mapStepUnique_lookup_untouched _ _ _ _ hkres.2.1 h3,
        mapStepActions_lookup_untouched _ _ _ _ _ hact h2,
        hl]

/-- Counterexample to C6 as stated: with `report_date` declared `string`
in the schema and absent from the raw item, the claim's defaulting clause
predicts output value `""`; the code's line 186 overwrites it with the
raw `date_start` value instead. -/
theorem claim_C6_cex :
    map_record [("report_date", "string")] campaign_performance_cfg
      (.dict [("date_start", .str "2021-01-01")]) =
      .ok [("report_date", .str "2021-01-01")]
  ∧ PyVal.str "2021-01-01" ≠ PyVal.str "" := by
  refine ⟨rfl, ?_⟩
  intro hcontra
  injection hcontra with h'
  exact absurd h' (by decide)

/-- Witness for the amended C6 at a concrete input: a declared `integer`
key present in the raw item is present in the output with its coerced
value. -/
theorem claim_C6_witness :
    alistContains [("clicks", PyVal.int 5), ("report_date", PyVal.str "d")] "clicks" = true ∧
    (∃ v, coerceProp (.dict [("clicks", .str "5"), ("date_start", .str "d")])
        "clicks" "integer" = .ok v ∧
      alistLookup [("clicks", PyVal.int 5), ("report_date", PyVal.str "d")] "clicks" =
        some v) := by
  have h := claim_C6 [("clicks", "integer")] campaign_performance_cfg
    (.dict [("clicks", .str "5"), ("date_start", .str "d")])
    [("clicks", PyVal.int 5), ("report_date", PyVal.str "d")] "clicks" "integer" rfl
    (by simp)
  refine ⟨h.1, h.2 (by simp) (by decide) ?_⟩
  intro entries he
  simp [pySubscript, alistLookup] at he

theorem filterByType_decomp (pred : PyVal → Bool) (as1 as2 : List PyVal) (e : PyVal)
    (fs : List PyVal) (tv : PyVal) (h : filterByType pred (as1 ++ e :: as2) = .ok fs)
    (he : entryType e = .ok tv) (hp : pred tv = true) :
    ∃ fs1 fs2, fs = fs1 ++ e :: fs2 ∧
      ∀ x ∈ fs2, x ∈ as2 ∧ ∃ tv', entryType x = .ok tv' ∧ pred tv' = true := by
  induction as1 generalizing fs with
  | nil =>
      rw [List.nil_append] at h
      obtain ⟨tv0, tl, he0, htl, hfs⟩ := filterByType_cons_elim pred e as2 fs h
      rw [he] at he0
      injection he0 with he1
      subst he1
      refine ⟨[], tl, by simp [hfs, hp], filterByType_mem pred as2 tl htl⟩
  | cons b as1' ih =>
      obtain ⟨tvb, tl, heb, htl, hfs⟩ := filterByType_cons_elim pred b (as1' ++ e :: as2) fs h
      obtain ⟨fs1, fs2, htleq, hprop⟩ := ih tl htl
      cases hpb : pred tvb with
      | false => exact ⟨fs1, fs2, by simp [hfs, hpb, htleq], hprop⟩
      | true => exact ⟨b :: fs1, fs2, by simp [hfs, hpb, htleq], hprop⟩

theorem foldActions_last (fs1 fs2 : List PyVal) (e : PyVal) (obj obj' : Obj) (t : String)
    (h : foldActions obj (fs1 ++ e :: fs2) = .ok obj')
    (ht : pySubscript e "action_type" = some (.str t))
    (hk : ∀ x ∈ fs2, ∀ t', pySubscript x "action_type" = some (.str t') →
      actionKey t' ≠ actionKey t) :
    ∃ v n, pySubscript e "value" = some v ∧ pyToInt v = some n ∧
      alistLookup obj' (actionKey t) = some (.int n) := by
  induction fs1 generalizing obj with
  | nil =>
      rw [List.nil_append] at h
      obtain ⟨v, n, t', hv, hn, ht', h'⟩ := foldActions_cons_elim e fs2 obj obj' h
      rw [ht] at ht'
      injection ht' with ht1
      injection ht1 with ht2
      subst ht2
      refine ⟨v, n, hv, hn, ?_⟩
      rw [foldActions_lookup_untouched fs2 _ obj' (actionKey t) hk h',
          alistLookup_insert_self]
  | cons b fs1' ih =>
      obtain ⟨vb, nb, tb, _, _, _, h'⟩ := foldActions_cons_elim b (fs1' ++ e :: fs2) obj obj' h
      exact ih _ h'

/-- Every registry entry uses one of the two supported-action lists of
the source. -/
theorem schema_map_supported (s : String) (cfg : StreamCfg)
    (h : schemaMapLookup s = some cfg) :
    cfg.supported_actions = default_actions ∨
      cfg.supported_actions = ["offline_conversion.purchase"] := by
  have hall : ∀ p ∈ schema_map,
      p.2.supported_actions = default_actions ∨
        p.2.supported_actions = ["offline_conversion.purchase"] := by decide
  exact hall _ (alistLookup_mem _ _ _ h)

/-- No default action derives one of the fixed keys written by the later
mapping steps. -/
theorem actionKey_default_fresh :
    ∀ t ∈ default_actions, actionKey t ∉ derivedFixedKeys := by decide

/-- Nor does `offline_conversion.purchase`. -/
theorem actionKey_ocp_fresh :
    actionKey "offline_conversion.purchase" ∉ derivedFixedKeys := by decide

/-- **C7**: in a raw item's `actions` array, an entry whose
`action_type` is in the stream's supported actions yields output key
`action_type.replace('.', '_') + "s"` with the integer-cast value; for
duplicate derived keys the last entry in iteration order wins (the fold
overwrites).  Stated for the last such entry `e` of the array
(`entries = as1 ++ e :: as2` with no later entry deriving the same key),
for any stream of the registry. -/
theorem claim_C7 (stream : String) (cfg : StreamCfg) (props : List (String × String))
    (item : PyVal) (entries as1 as2 : List PyVal) (e : PyVal) (t : String) (obj : Obj)
    (hcfg : schemaMapLookup stream = some cfg)
    (hact : pySubscript item "actions" = some (.list entries))
    (hdec : entries = as1 ++ e :: as2)
    (het : pySubscript e "action_type" = some (.str t))
    (hsup : t ∈ cfg.supported_actions)
    (hlast : ∀ x ∈ as2, ∀ t', pySubscript x "action_type" = some (.str t') →
        t' ∈ cfg.supported_actions → actionKey t' ≠ actionKey t)
    (hok : map_record props cfg item = .ok obj) :
    ∃ v n, pySubscript e "value" = some v ∧ pyToInt v = some n ∧
      alistLookup obj (actionKey t) = some (.int n) := by
  obtain ⟨o1, o2, o3, o4, o5, h1, h2, h3, h4, h5, h6⟩ := map_record_elim props cfg item obj hok
  rcases mapStepActions_elim cfg item o1 o2 h2 with ⟨hm, rfl⟩ | ⟨entries', fs, hs, hf, hfold⟩
  · exfalso
    cases item <;> simp [pySubscript] at hact
    rename_i d
    simp [pyContains, alistContains, hact] at hm
  · rw [hact] at hs
    injection hs with hs1
    injection hs1 with hs2
    subst hs2
    subst hdec
    have hef : entryType e = .ok (.str t) := by simp [entryType, het]
    have hpe : predActions cfg (.str t) = true := by simp [predActions, hsup]
    obtain ⟨fs1, fs2, hfseq, hprop⟩ :=
      filterByType_decomp (predActions cfg) as1 as2 e fs (.str t) hf hef hpe
    subst hfseq
    have hk2 : ∀ x ∈ fs2, ∀ t', pySubscript x "action_type" = some (.str t') →
        actionKey t' ≠ actionKey t := by
      intro x hx t' ht'
      obtain ⟨hxmem, tv', htv', hptv⟩ := hprop x hx
      have heq : PyVal.str t' = tv' := by
        simp only [entryType, ht'] at htv'
        exact Except.ok.inj htv'
      rw [← heq] at hptv
      have hmemsup : t' ∈ cfg.supported_actions := by
        simpa [predActions] using hptv
      exact hlast x hxmem t' ht' hmemsup
    obtain ⟨v, n, hv, hn, hlook⟩ := foldActions_last fs1 fs2 e o1 o2 t hfold het hk2
    have hfresh : actionKey t ∉ derivedFixedKeys := by
      rcases schema_map_supported stream cfg hcfg with hd | ho
      · exact actionKey_default_fresh t (hd ▸ hsup)
      · rw [ho] at hsup
        simp only [List.mem_singleton] at hsup
        subst hsup
        exact actionKey_ocp_fresh
    simp only [derivedFixedKeys, List.mem_cons, List.not_mem_nil, or_false] at hfresh
    push_neg at hfresh
    refine ⟨v, n, hv, hn, ?_⟩
    rw [mapStepVideo_lookup_untouched _ _ _ _ hfresh.2.2.2 h6,
        mapStepReportDate_lookup_untouched _ _ _ _ hfresh.1 h5,
        mapStepActionValues_lookup_untouched _ _ _ _ _ hfresh.2.2.1 h4,
        mapStepUnique_lookup_untouched _ _ _ _ hfresh.2.1 h3,
        hlook]

/-- Witness for C7: two `link_click` entries with values 3 and 7 — the
output's `link_clicks` equals 7, the later entry (last-wins). -/
theorem claim_C7_witness :
    ∃ v n, pySubscript (.dict [("action_type", .str "link_click"), ("value", .str "7")])
        "value" = some v ∧ pyToInt v = some n ∧
      alistLookup [("link_clicks", PyVal.int 7), ("report_date", PyVal.str "d")]
        (actionKey "link_click") = some (.int n) := by
  exact claim_C7 "campaign_performance_report" campaign_performance_cfg []
    (.dict [("actions", .list
        [.dict [("action_type", .str "link_click"), ("value", .str "3")],
         .dict [("action_type", .str "link_click"), ("value", .str "7")]]),
      ("date_start", .str "d")])
    [.dict [("action_type", .str "link_click"), ("value", .str "3")],
     .dict [("action_type", .str "link_click"), ("value", .str "7")]]
    [.dict [("action_type", .str "link_click"), ("value", .str "3")]] []
    (.dict [("action_type", .str "link_click"), ("value", .str "7")]) "link_click"
    [("link_clicks", PyVal.int 7), ("report_date", PyVal.str "d")]
    rfl rfl rfl rfl (by decide) (by intro x hx; exact absurd hx (List.not_mem_nil x)) rfl

/-! ## Claims C1, C2, C3 -/

theorem mapStep1_coerce_ok (props : List (String × String)) (item : PyVal) (obj obj' : Obj)
    (k ty : String) (hmem : (k, ty) ∈ props) (h : mapStep1 props item obj = .ok obj') :
    ∃ v, coerceProp item k ty = .ok v := by
  induction props generalizing obj with
  | nil => exact absurd hmem (List.not_mem_nil _)
  | cons p rest ih =>
      obtain ⟨k0, ty0⟩ := p
      obtain ⟨v, hv, h'⟩ := mapStep1_cons_elim k0 ty0 rest item obj obj' h
      rcases List.mem_cons.mp hmem with heq | hmem'
      · injection heq with h1 h2
        subst h1; subst h2
        exact ⟨v, hv⟩
      · exact ih _ hmem' h'

/-- A raw item without `date_start` can never map successfully: line 186
raises an uncaught KeyError. -/
theorem map_record_missing_date_start (props : List (String × String)) (cfg : StreamCfg)
    (d : List (String × PyVal)) (hmiss : alistLookup d "date_start" = Option.none)
    (obj : Obj) : map_record props cfg (.dict d) ≠ .ok obj := by
  intro h
  obtain ⟨o1, o2, o3, o4, o5, _, _, _, _, h5, _⟩ := map_record_elim props cfg (.dict d) obj h
  obtain ⟨v, hv, _⟩ := mapStepReportDate_elim (.dict d) o4 o5 h5
  rw [show pySubscript (.dict d) "date_start" = alistLookup d "date_start" from rfl,
      hmiss] at hv
  exact Option.noConfusion hv

/-- A schema property declared `integer` whose raw value is not
convertible by `int()` can never map successfully: the coercion raises an
uncaught ValueError/TypeError. -/
theorem map_record_bad_integer (props : List (String × String)) (cfg : StreamCfg)
    (d : List (String × PyVal)) (k : String) (v : PyVal)
    (hmem : (k, "integer") ∈ props) (hval : alistLookup d k = some v)
    (hbad : pyToInt v = Option.none) (obj : Obj) :
    map_record props cfg (.dict d) ≠ .ok obj := by
  intro h
  obtain ⟨o1, _, _, _, _, h1, _, _, _, _, _⟩ := map_record_elim props cfg (.dict d) obj h
  obtain ⟨w, hw⟩ := mapStep1_coerce_ok props (.dict d) [] o1 k "integer" hmem h1
  simp [coerceProp, pyContains, alistContains, pySubscript, hval, hbad] at hw

/-- The raw insight item of the C1 failing input: a `clicks` value that
`int()` cannot convert, `date_start` present. -/
def c1BadItem : PyVal := .dict [("clicks", .str "abc"), ("date_start", .str "2021-01-01")]

/-- The network of the C1 failing input: `/me` answers with an id, the
ad-accounts fetch discovers one account, and that account's insights
fetch returns a single page holding the malformed item. -/
def c1Net : Net :=
  ⟨some (.dict [("id", .str "me_user")]),
   [.ok (.dict [("data", .list [.dict [("id", .str "act_1")]])])],
   [[.ok (.dict [("data", .list [c1BadItem])])]]⟩

/-- **C1** (code bug): mapping the malformed item does raise an error
that nothing in `map_record`, `mapRecords` or
`retrieve_report_for_account` catches (first two conjuncts), and the same
for a missing `date_start` (third); but the error is *not* fatal for the
run: the per-account task's exception is stored in the never-consumed
`executor.map` iterator and silently discarded, so `get_reports`
completes normally (`.ok`) with the failed task's outcome dropped (fourth
conjunct), contradicting the claimed abort. -/
theorem claim_C1 :
    map_record [("clicks", "integer")] campaign_performance_cfg c1BadItem =
        .error "ValueError: int()"
  ∧ retrieve_report_for_account "campaign_performance_report" [("clicks", "integer")]
        ⟨"tok", "20210101,20210131"⟩ [.ok (.dict [("data", .list [c1BadItem])])] =
        .error "ValueError: int()"
  ∧ map_record [] campaign_performance_cfg (.dict [("clicks", .int 3)]) =
        .error "KeyError: date_start"
  ∧ get_reports "campaign_performance_report" [("clicks", "integer")]
        ⟨"tok", "20210101,20210131"⟩ c1Net =
      .ok [.error "ValueError: int()"] := by
  exact ⟨rfl, rfl, rfl, rfl⟩

/-- The network of the C2/C3 scenarios: one account discovered. -/
def c2Net : Net :=
  ⟨some (.dict [("id", .str "me_user")]),
   [.ok (.dict [("data", .list [.dict [("id", .str "act_1")]])])],
   []⟩

/-- **C2** (amended): with a stream name that is not a registry key, the
run does *not* abort with a configuration error: account discovery runs
first, each per-account task raises the KeyError at the
`schema_map[self.stream]['fields']` lookup, and those task errors are
discarded by the never-consumed executor iterator, so `get_reports`
returns normally with one dropped error per account. -/
theorem claim_C2 (stream : String) (props : List (String × String)) (config : TapConfig)
    (net : Net) (ids : List PyVal)
    (hunknown : schemaMapLookup stream = Option.none)
    (hdisc : retrieve_account_ids config net = .ok ids) :
    get_reports stream props config net =
      .ok (ids.map (fun _ => .error "KeyError: unknown stream")) := by
  have htask : ∀ (revents : List (List HttpEvent)) (i : Nat) (accounts : List PyVal),
      taskOutcomes stream props config revents i accounts =
        accounts.map (fun _ => Except.error "KeyError: unknown stream") := by
    intro revents i accounts
    induction accounts generalizing i with
    | nil => rfl
    | cons a rest ih =>
        simp only [taskOutcomes, retrieve_report_for_account, hunknown, ih, List.map_cons]
  simp [get_reports, hdisc, htask]

/-- Counterexample to C2 as stated: with an unknown stream the run
completes normally (`.ok`), *after* account discovery has issued its
network exchanges (`/me` and the ad-accounts page were consumed and an
account id extracted) — it neither aborts nor aborts *before* a network
call. -/
theorem claim_C2_cex :
    schemaMapLookup "bogus_stream" = Option.none
  ∧ retrieve_account_ids ⟨"tok", "20210101,20210131"⟩ c2Net = .ok [.str "act_1"]
  ∧ get_reports "bogus_stream" [] ⟨"tok", "20210101,20210131"⟩ c2Net =
      .ok [.error "KeyError: unknown stream"] := by
  exact ⟨rfl, rfl, rfl⟩

/-- Witness for the amended C2 at a concrete input. -/
theorem claim_C2_witness :
    get_reports "bogus_stream" [] ⟨"tok", "20210101,20210131"⟩ c2Net =
      .ok ([PyVal.str "act_1"].map (fun _ => .error "KeyError: unknown stream")) :=
  claim_C2 "bogus_stream" [] ⟨"tok", "20210101,20210131"⟩ c2Net [.str "act_1"] rfl rfl

/-- **C3** (amended): a `/me` discovery failure is fatal — a raised
request/parse error or a response body without `'id'` propagates out of
`get_reports` on the main thread (first two conjuncts).  But a failed or
empty ad-accounts paged fetch is *not*: `retrieve_paged_data` swallows
its failures and returns `[]`, the account list is empty, and the run
completes normally having processed zero accounts (third conjunct). -/
theorem claim_C3 :
    (∀ (stream : String) (props : List (String × String)) (config : TapConfig) (net : Net),
        net.me = Option.none →
        get_reports stream props config net = .error "requests/json error on me")
  ∧ (∀ (stream : String) (props : List (String × String)) (config : TapConfig) (net : Net)
        (body : PyVal),
        net.me = some body → pySubscript body "id" = Option.none →
        get_reports stream props config net = .error "KeyError: id")
  ∧ (∀ (stream : String) (props : List (String × String)) (config : TapConfig) (net : Net)
        (body uid : PyVal),
        net.me = some body → pySubscript body "id" = some uid →
        (retrieve_paged_data
            [("access_token", .str config.accessToken), ("fields", .str "id"),
             ("limit", .int MAX_PAGE_SIZE)] net.accountEvents).items = [] →
        get_reports stream props config net = .ok []) := by
  refine ⟨?_, ?_, ?_⟩
  · intro stream props config net h
    simp [get_reports, retrieve_account_ids, h]
  · intro stream props config net body h1 h2
    simp [get_reports, retrieve_account_ids, h1, h2]
  · intro stream props config net body uid h1 h2 h3
    simp [get_reports, retrieve_account_ids, h1, h2, h3, extractIds, taskOutcomes]

/-- The network of the C3 counterexample: `/me` succeeds, the ad-accounts
fetch fails at limit 5000 and again at the lowered limit. -/
def c3Net : Net := ⟨some (.dict [("id", .str "me_user")]), [.fail, .fail], []⟩

/-- Counterexample to C3 as stated: the ad-accounts discovery fails on
both attempts, yet the run completes normally with zero accounts
processed (`.ok []`) instead of aborting. -/
theorem claim_C3_cex :
    (retrieve_paged_data
        [("access_token", PyVal.str "tok"), ("fields", PyVal.str "id"),
         ("limit", PyVal.int MAX_PAGE_SIZE)] [.fail, .fail]).items = []
  ∧ get_reports "campaign_performance_report" [] ⟨"tok", "20210101,20210131"⟩ c3Net =
      .ok [] := by
  exact ⟨rfl, rfl⟩

/-- Witness for the amended C3 at concrete inputs: both fatal `/me`
failures, and the empty-discovery run that completes normally. -/
theorem claim_C3_witness :
    get_reports "campaign_performance_report" [] ⟨"tok", "x"⟩ ⟨Option.none, [], []⟩ =
        .error "requests/json error on me"
  ∧ get_reports "campaign_performance_report" [] ⟨"tok", "x"⟩ ⟨some (.dict []), [], []⟩ =
        .error "KeyError: id"
  ∧ get_reports "campaign_performance_report" [] ⟨"tok", "20210101,20210131"⟩ c3Net =
        .ok [] := by
  refine ⟨claim_C3.1 _ _ _ _ rfl, claim_C3.2.1 _ _ _ _ (.dict []) rfl rfl, ?_⟩
  exact claim_C3.2.2 _ _ _ c3Net (.dict [("id", .str "me_user")]) (.str "me_user")
    rfl rfl rfl

end TapFacebook
